import Mathlib

/-!
Verification development for the terminal spreadsheet viewer in `src/app.py`.

The Python source is shallowly embedded: numeric cell values are modelled as
exact rationals (the source computes with machine floats; the spec describes
the ideal arithmetic), strings are Lean `String`s manipulated at the
code-point (`List Char`) level exactly as Python slices do, and the mutable
Textual screen stack is explicit state passing over an `AppState` record.
External collaborators (pandas, numpy, the generative-AI gateway) are
modelled from their documented behaviour at the exact call sites used by the
source.
-/

set_option maxHeartbeats 1000000
set_option linter.unusedVariables false

namespace PyTuiExcel

/-- Python `int(q)` applied to a (nonnegative or negative) number:
truncation toward zero. -/
def pyInt (q : ℚ) : ℤ := if 0 ≤ q then q.floor else -((-q).floor)

/-- Batteries' computable `Rat.floor` agrees with the `FloorRing` floor. -/
theorem ratFloor_eq (q : ℚ) : q.floor = ⌊q⌋ := by
  rw [Rat.floor_def', ← Rat.floor_def]

theorem pyInt_of_nonneg {q : ℚ} (h : 0 ≤ q) : pyInt q = ⌊q⌋ := by
  rw [pyInt, if_pos h, ratFloor_eq]

/-- Left-justified fixed-width padding, modelling Python format `f".label:15."`
style left justification. -/
def padRight (s : String) (n : ℕ) : String :=
  s ++ String.mk (List.replicate (n - s.data.length) ' ')

/-- Python slicing `s[:n]` on a string (by code points). -/
def pySlice (s : String) (n : ℕ) : String := String.mk (s.data.take n)

/-- Display string for a numeric value (model of Python `str` on the number;
the exact float formatting of the source is not reproduced). -/
def qStr (q : ℚ) : String :=
  if q.den = 1 then toString q.num else toString q.num ++ "/" ++ toString q.den

/-! ## BarChart (`BarChart.render`, src/app.py lines 160-180) -/

/-- The `max_value` computed by `BarChart.render`:
`max(self.data.values()) if self.data.values() else 1`
(an empty `dict_values` is falsy in Python). -/
def barMaxValue (data : List (String × ℚ)) : ℚ :=
  match data with
  | [] => 1
  | p :: ps => (ps.map Prod.snd).foldl max p.2

/-- Bar length from `BarChart.render`:
`int((value / max_value) * self.max_bar_length) if max_value > 0 else 0`.
The `toNat` models Python string repetition, which yields the empty string
for a negative count. -/
def barLen (value maxValue : ℚ) (w : ℕ) : ℕ :=
  if 0 < maxValue then (pyInt (value / maxValue * (w : ℚ))).toNat else 0

/-- One rendered line of `BarChart.render`. -/
def barLine (label : String) (value maxValue : ℚ) (w : ℕ) : String :=
  padRight label 15 ++ " │ " ++ String.mk (List.replicate (barLen value maxValue w) '█')
    ++ " " ++ qStr value

/-- `BarChart.render` (default `max_bar_length = 40`); returns the rendered
lines (`self.data` is an insertion-ordered dict, modelled as an association
list). -/
def barChartRender (data : List (String × ℚ)) (w : ℕ) : List String :=
  if data = [] then ["No data to display"]
  else data.map fun p => barLine p.1 p.2 (barMaxValue data) w

theorem init_le_foldl_max {α} [LinearOrder α] (x : α) (l : List α) :
    x ≤ l.foldl max x := by
  induction l generalizing x with
  | nil => exact le_refl x
  | cons a t ih => exact le_trans (le_max_left x a) (ih (max x a))

theorem le_foldl_max {α} [LinearOrder α] {y : α} (x : α) (l : List α)
    (h : y = x ∨ y ∈ l) : y ≤ l.foldl max x := by
  induction l generalizing x with
  | nil =>
    rcases h with rfl | h
    · exact le_refl y
    · cases h
  | cons a t ih =>
    simp only [List.foldl_cons]
    rcases h with rfl | h
    · exact le_trans (le_max_left y a) (init_le_foldl_max _ t)
    · rcases List.mem_cons.mp h with rfl | h
      · exact le_trans (le_max_right x y) (init_le_foldl_max _ t)
      · exact ih (max x a) (Or.inr h)

theorem foldl_max_mem {α} [LinearOrder α] (x : α) (l : List α) :
    l.foldl max x = x ∨ l.foldl max x ∈ l := by
  induction l generalizing x with
  | nil => exact Or.inl rfl
  | cons a t ih =>
    simp only [List.foldl_cons]
    rcases ih (max x a) with h | h
    · rcases max_choice x a with hx | ha
      · exact Or.inl (h.trans hx)
      · exact Or.inr (by rw [h, ha]; exact List.mem_cons_self a t)
    · exact Or.inr (List.mem_cons_of_mem a h)

theorem mem_le_barMaxValue {data : List (String × ℚ)} {p : String × ℚ}
    (hp : p ∈ data) : p.2 ≤ barMaxValue data := by
  cases data with
  | nil => cases hp
  | cons q ps =>
    rcases List.mem_cons.mp hp with rfl | h
    · exact le_foldl_max _ _ (Or.inl rfl)
    · exact le_foldl_max _ _ (Or.inr (List.mem_map_of_mem Prod.snd h))

theorem barMaxValue_attained {data : List (String × ℚ)} (h : data ≠ []) :
    ∃ p ∈ data, p.2 = barMaxValue data := by
  cases data with
  | nil => exact absurd rfl h
  | cons q ps =>
    rcases foldl_max_mem q.2 (ps.map Prod.snd) with hm | hm
    · exact ⟨q, List.mem_cons_self q ps, hm.symm⟩
    · rcases List.mem_map.mp hm with ⟨p, hp, hv⟩
      exact ⟨p, List.mem_cons_of_mem q hp, hv⟩

/-- C1 (counterexample): in the series `{a: 100, b: 1}` with the default
`max_bar_length = 40`, the bar of the entry `b` has length `0` although its
value `1` is nonzero, refuting "a bar has length 0 only when its value is 0"
for `BarChart.render`. -/
theorem C1_counterexample :
    ("b", (1 : ℚ)) ∈ [("a", (100 : ℚ)), ("b", 1)] ∧
      barLen 1 (barMaxValue [("a", 100), ("b", 1)]) 40 = 0 ∧ (1 : ℚ) ≠ 0 := by
  refine ⟨by decide, ?_, one_ne_zero⟩
  have hm : barMaxValue [("a", (100 : ℚ)), ("b", 1)] = 100 := by decide
  rw [hm, barLen, if_pos (by norm_num), pyInt_of_nonneg (by norm_num)]
  norm_num

/-- C1 (amended): for a non-empty `BarSeries` with non-negative values, at
least one of them positive, `BarChart.render` gives the maximum entry a bar
of length exactly `maxBarWidth`, every bar length is at most `maxBarWidth`,
each bar length is `floor(value / maxValue * maxBarWidth)`, and a bar has
length `0` exactly when `value * maxBarWidth < maxValue` (in particular for
value `0`, but also for small positive values). -/
theorem C1_bar_lengths (data : List (String × ℚ)) (w : ℕ)
    (hnn : ∀ p ∈ data, 0 ≤ p.2) (hpos : ∃ p ∈ data, 0 < p.2) :
    (∃ p ∈ data, p.2 = barMaxValue data) ∧
    (∀ p ∈ data, p.2 = barMaxValue data → barLen p.2 (barMaxValue data) w = w) ∧
    (∀ p ∈ data, barLen p.2 (barMaxValue data) w ≤ w) ∧
    (∀ p ∈ data, barLen p.2 (barMaxValue data) w = (⌊p.2 / barMaxValue data * (w : ℚ)⌋).toNat) ∧
    (∀ p ∈ data, (barLen p.2 (barMaxValue data) w = 0 ↔ p.2 * (w : ℚ) < barMaxValue data)) := by
  obtain ⟨q, hq, hqpos⟩ := hpos
  have hM : 0 < barMaxValue data := lt_of_lt_of_le hqpos (mem_le_barMaxValue hq)
  have hMne : barMaxValue data ≠ 0 := ne_of_gt hM
  have hfloor : ∀ p ∈ data, barLen p.2 (barMaxValue data) w =
      (⌊p.2 / barMaxValue data * (w : ℚ)⌋).toNat := by
    intro p hp
    rw [barLen, if_pos hM, pyInt_of_nonneg]
    exact mul_nonneg (div_nonneg (hnn p hp) hM.le) (Nat.cast_nonneg w)
  refine ⟨barMaxValue_attained (by rintro rfl; cases hq), ?_, ?_, hfloor, ?_⟩
  · intro p hp hmax
    rw [hfloor p hp, hmax, div_self hMne, one_mul, Int.floor_natCast, Int.toNat_natCast]
  · intro p hp
    rw [hfloor p hp]
    have h1 : p.2 / barMaxValue data * (w : ℚ) ≤ (w : ℚ) := by
      have hle : p.2 / barMaxValue data ≤ 1 :=
        (div_le_one hM).mpr (mem_le_barMaxValue hp)
      calc p.2 / barMaxValue data * (w : ℚ) ≤ 1 * (w : ℚ) :=
            mul_le_mul_of_nonneg_right hle (by positivity)
        _ = (w : ℚ) := one_mul _
    have h2 : ⌊p.2 / barMaxValue data * (w : ℚ)⌋ ≤ (w : ℤ) := by
      calc ⌊p.2 / barMaxValue data * (w : ℚ)⌋ ≤ ⌊((w : ℤ) : ℚ)⌋ := by
            exact Int.floor_le_floor (by exact_mod_cast h1)
        _ = (w : ℤ) := Int.floor_intCast w
    exact_mod_cast Int.toNat_le.mpr h2
  · intro p hp
    rw [hfloor p hp]
    have hq0 : (0 : ℚ) ≤ p.2 / barMaxValue data * (w : ℚ) := by
      have := hnn p hp
      positivity
    constructor
    · intro h0
      have hfl0 : ⌊p.2 / barMaxValue data * (w : ℚ)⌋ ≤ 0 := by
        by_contra hc
        push_neg at hc
        omega
      have hlt1 : p.2 / barMaxValue data * (w : ℚ) < 1 := by
        have hfl1 : ⌊p.2 / barMaxValue data * (w : ℚ)⌋ < (1 : ℤ) := by omega
        have := Int.floor_lt.mp hfl1
        simpa using this
      rw [div_mul_eq_mul_div] at hlt1
      exact (div_lt_one hM).mp hlt1
    · intro hlt
      have hlt1 : p.2 / barMaxValue data * (w : ℚ) < 1 := by
        rw [div_mul_eq_mul_div]
        exact (div_lt_one hM).mpr hlt
      have : ⌊p.2 / barMaxValue data * (w : ℚ)⌋ = 0 :=
        Int.floor_eq_zero_iff.mpr ⟨hq0, hlt1⟩
      rw [this]
      rfl

/-- Witness for C1: on the series `{a: 2, b: 1}` with `maxBarWidth = 40`,
the maximum entry `a` is rendered at full width. -/
theorem C1_witness :
    barLen 2 (barMaxValue [("a", (2 : ℚ)), ("b", 1)]) 40 = 40 := by
  have h := C1_bar_lengths [("a", (2 : ℚ)), ("b", 1)] 40 (by decide)
    ⟨("a", 2), by decide, by decide⟩
  exact h.2.1 ("a", 2) (by decide) (by decide)

/-! ## Navigation stack and credential gating
(`ExcelViewerApp`, `ApiKeyScreen`, src/app.py lines 260-277 and 547-566).
Textual's `App` starts with one default screen on the stack; `push_screen`
puts a screen on top; `pop_screen` removes the top. -/

/-- The screen classes of the application (plus Textual's built-in default
screen that is at the bottom of every screen stack). -/
inductive ScreenSpec where
  | defaultScreen : ScreenSpec
  | apiKeyScreen : ScreenSpec
  | fileSelectionScreen : ScreenSpec
  | sheetSelectionScreen (filePath : String) : ScreenSpec
  | dataViewerScreen (filePath sheetName : String) : ScreenSpec
deriving DecidableEq

/-- Process-wide application state: the `GOOGLE_API_KEY` environment entry,
the Textual screen stack (head is the top / active screen), and whether
`self.exit()` has been called. -/
structure AppState where
  env : Option String
  stack : List ScreenSpec
  exited : Bool
deriving DecidableEq

/-- Python truthiness of `os.environ.get("GOOGLE_API_KEY")`: `None` and the
empty string are falsy. -/
def envTruthy : Option String → Bool
  | none => false
  | some s => !(s == "")

/-- `self.app.push_screen(s)`. -/
def pushScreen (st : AppState) (s : ScreenSpec) : AppState :=
  { st with stack := s :: st.stack }

/-- `self.app.pop_screen()` (Textual raises on a one-element stack; the
source only calls it when the stack is taller). -/
def popScreenRaw (st : AppState) : AppState :=
  { st with stack := st.stack.tail }

/-- `ExcelViewerApp.action_pop_screen`:
`if len(self.screen_stack) > 1: self.pop_screen() else: self.exit()`. -/
def actionPopScreen (st : AppState) : AppState :=
  if 1 < st.stack.length then popScreenRaw st else { st with exited := true }

/-- `ExcelViewerApp.on_mount`: push `ApiKeyScreen` when no API key is
present, otherwise `FileSelectionScreen`. -/
def onMount (st : AppState) : AppState :=
  if envTruthy st.env then pushScreen st .fileSelectionScreen
  else pushScreen st .apiKeyScreen

/-- `ApiKeyScreen.submit_key`: for a truthy input value, store the key in
`os.environ`, pop the current screen and push `FileSelectionScreen`; for an
empty input do nothing. -/
def submitKey (st : AppState) (key : String) : AppState :=
  if key ≠ "" then
    pushScreen (popScreenRaw { st with env := some key }) .fileSelectionScreen
  else st

theorem actionPop_pushScreen (st : AppState) (s : ScreenSpec)
    (hne : st.stack ≠ []) : actionPopScreen (pushScreen st s) = st := by
  have hlen : 1 < (pushScreen st s).stack.length := by
    simp only [pushScreen, List.length_cons]
    have := List.length_pos.mpr hne
    omega
  rw [actionPopScreen, if_pos hlen]
  simp [popScreenRaw, pushScreen]

theorem pushAll_pop_iterate (l : List ScreenSpec) :
    ∀ st : AppState, st.stack ≠ [] →
      actionPopScreen^[l.length] (List.foldl pushScreen st l) = st := by
  induction l with
  | nil => intro st _; rfl
  | cons a t ih =>
    intro st hne
    have hstep : (pushScreen st a).stack ≠ [] := by simp [pushScreen]
    calc actionPopScreen^[t.length + 1] (List.foldl pushScreen (pushScreen st a) t)
        = actionPopScreen (actionPopScreen^[t.length]
            (List.foldl pushScreen (pushScreen st a) t)) :=
          Function.iterate_succ_apply' actionPopScreen t.length _
      _ = actionPopScreen (pushScreen st a) := by rw [ih (pushScreen st a) hstep]
      _ = st := actionPop_pushScreen st a hne

/-- C5: navigation stack discipline. Starting from any running state with a
non-empty screen stack: pushing `N` screens and popping `N` times restores
the exact prior state; `action_pop_screen` on a one-entry stack exits the
application instead of underflowing (the stack is untouched); and neither
push nor pop can empty the stack. -/
theorem C5_nav_stack_discipline (st : AppState) (l : List ScreenSpec)
    (s : ScreenSpec) (hne : st.stack ≠ []) :
    actionPopScreen^[l.length] (List.foldl pushScreen st l) = st ∧
    (st.stack.length = 1 → actionPopScreen st = { st with exited := true }) ∧
    (pushScreen st s).stack ≠ [] ∧
    (actionPopScreen st).stack ≠ [] := by
  refine ⟨pushAll_pop_iterate l st hne, ?_, by simp [pushScreen], ?_⟩
  · intro h1
    rw [actionPopScreen, if_neg (by omega)]
  · by_cases h : 1 < st.stack.length
    · rw [actionPopScreen, if_pos h]
      simp only [popScreenRaw]
      have ht : st.stack.tail.length = st.stack.length - 1 := List.length_tail _
      exact List.length_pos.mp (by omega)
    · rw [actionPopScreen, if_neg h]
      exact hne

/-- Witness for C5: two pushes followed by two pops restore the initial
one-screen state. -/
theorem C5_witness :
    actionPopScreen^[2] (List.foldl pushScreen
        { env := none, stack := [ScreenSpec.defaultScreen], exited := false }
        [ScreenSpec.fileSelectionScreen, ScreenSpec.apiKeyScreen]) =
      { env := none, stack := [ScreenSpec.defaultScreen], exited := false } :=
  (C5_nav_stack_discipline
    { env := none, stack := [ScreenSpec.defaultScreen], exited := false }
    [ScreenSpec.fileSelectionScreen, ScreenSpec.apiKeyScreen]
    ScreenSpec.apiKeyScreen (by decide)).1

/-- C9: credential gating. With no truthy credential in the process
environment, mounting the app makes `ApiKeyScreen` the active screen;
submitting a non-empty key stores it in the environment and replaces the
current screen with `FileSelectionScreen`; submitting an empty key is a
no-op. -/
theorem C9_credential_gating (st : AppState) (k : String) :
    (envTruthy st.env = false →
      (onMount st).stack.head? = some ScreenSpec.apiKeyScreen) ∧
    (k ≠ "" → submitKey st k =
      { st with env := some k,
                stack := ScreenSpec.fileSelectionScreen :: st.stack.tail }) ∧
    submitKey st "" = st := by
  refine ⟨?_, ?_, ?_⟩
  · intro h
    rw [onMount, h]
    rfl
  · intro h
    rw [submitKey, if_pos h]
    rfl
  · rw [submitKey, if_neg (by simp)]

/-- Witness for C9: from a keyless state the entry screen is the credential
screen; submitting `"abc"` stores it and swaps in the file list; submitting
the empty string changes nothing. -/
theorem C9_witness :
    (onMount { env := none, stack := [ScreenSpec.defaultScreen],
               exited := false }).stack.head? = some ScreenSpec.apiKeyScreen ∧
    submitKey { env := none,
                stack := [ScreenSpec.apiKeyScreen, ScreenSpec.defaultScreen],
                exited := false } "abc" =
      { env := some "abc",
        stack := [ScreenSpec.fileSelectionScreen, ScreenSpec.defaultScreen],
        exited := false } ∧
    submitKey { env := none,
                stack := [ScreenSpec.apiKeyScreen, ScreenSpec.defaultScreen],
                exited := false } "" =
      { env := none,
        stack := [ScreenSpec.apiKeyScreen, ScreenSpec.defaultScreen],
        exited := false } := by
  refine ⟨(C9_credential_gating ⟨none, [ScreenSpec.defaultScreen], false⟩ "x").1 (by decide), ?_,
    (C9_credential_gating
      ⟨none, [ScreenSpec.apiKeyScreen, ScreenSpec.defaultScreen], false⟩ "").2.2⟩
  exact (C9_credential_gating
    ⟨none, [ScreenSpec.apiKeyScreen, ScreenSpec.defaultScreen], false⟩ "abc").2.1 (by decide)

/-! ## DataFrame model and StatsPanel
(`StatsPanel.render`, src/app.py lines 183-218).
A pandas frame is a list of typed columns: a column has float/int dtype
(`numeric`, picked up by `select_dtypes(include=[np.number])`, missing cells
being NaN) or object dtype (`text`, picked up by
`select_dtypes(include=['object'])`). -/

/-- A typed pandas column payload. -/
inductive ColData where
  | numeric (vals : List (Option ℚ)) : ColData
  | text (vals : List (Option String)) : ColData
deriving DecidableEq

/-- A named pandas column. -/
structure Column where
  name : String
  data : ColData
deriving DecidableEq

/-- A pandas DataFrame: its ordered columns. -/
structure DataFrame where
  cols : List Column
deriving DecidableEq

def Column.isNumericCol (c : Column) : Bool :=
  match c.data with
  | .numeric _ => true
  | .text _ => false

def Column.isTextCol (c : Column) : Bool :=
  match c.data with
  | .numeric _ => false
  | .text _ => true

/-- The numeric values of a column (empty for an object column). -/
def Column.numVals (c : Column) : List (Option ℚ) :=
  match c.data with
  | .numeric vs => vs
  | .text _ => []

/-- The text values of a column (empty for a numeric column). -/
def Column.textVals (c : Column) : List (Option String) :=
  match c.data with
  | .numeric _ => []
  | .text vs => vs

def Column.colLen (c : Column) : ℕ :=
  match c.data with
  | .numeric vs => vs.length
  | .text vs => vs.length

/-- `self.df.select_dtypes(include=[np.number]).columns`. -/
def numericCols (df : DataFrame) : List Column :=
  df.cols.filter (·.isNumericCol)

/-- `self.df.select_dtypes(include=['object']).columns`. -/
def textCols (df : DataFrame) : List Column :=
  df.cols.filter (·.isTextCol)

/-- `len(self.df)`: the number of rows. -/
def dfLen (df : DataFrame) : ℕ :=
  match df.cols with
  | [] => 0
  | c :: _ => c.colLen

/-- pandas `Series.min()` with default `skipna=True`: the minimum over
non-missing values, or NaN (`none`) when there are none. -/
def seriesMin (vs : List (Option ℚ)) : Option ℚ :=
  match vs.filterMap id with
  | [] => none
  | x :: xs => some (xs.foldl min x)

/-- pandas `Series.max()` with default `skipna=True`. -/
def seriesMax (vs : List (Option ℚ)) : Option ℚ :=
  match vs.filterMap id with
  | [] => none
  | x :: xs => some (xs.foldl max x)

/-- pandas `Series.mean()` with default `skipna=True`: NaN when all values
are missing. -/
def seriesMean (vs : List (Option ℚ)) : Option ℚ :=
  match vs.filterMap id with
  | [] => none
  | x :: xs => some ((x :: xs).sum / ((x :: xs).length : ℚ))

/-- Modelled from the spec: the source displays a floating-point square root
(inside `Series.std()`); the library function is approximated here by a
rational square root truncated to four decimal places. -/
def sqrtApprox (q : ℚ) : ℚ :=
  ((Nat.sqrt (pyInt (q * 100000000)).toNat : ℚ)) / 10000

/-- pandas `Series.std()` (sample standard deviation, `ddof=1`), which is
NaN when fewer than two values are non-missing. -/
def seriesStd (vs : List (Option ℚ)) : Option ℚ :=
  match vs.filterMap id with
  | [] => none
  | [_] => none
  | x :: y :: rest =>
    let l := x :: y :: rest
    let m := l.sum / (l.length : ℚ)
    some (sqrtApprox ((l.map (fun v => (v - m) ^ 2)).sum / ((l.length : ℚ) - 1)))

/-- Python `f".x:.2f."` formatting; a NaN float formats as `"nan"`.
(Python rounds half-to-even on binary floats; on exact rationals we use
`round`, half-up, which agrees except at exact midpoints.) -/
def fmt2 (x : Option ℚ) : String :=
  match x with
  | none => "nan"
  | some q =>
    let n : ℤ := round (q * 100)
    let sign := if n < 0 then "-" else ""
    let a := n.natAbs
    sign ++ toString (a / 100) ++ "." ++
      (if a % 100 < 10 then "0" else "") ++ toString (a % 100)

/-- pandas `Series.nunique()`: distinct non-missing values. -/
def uniqueCount (c : Column) : ℕ :=
  (c.textVals.filterMap id).toFinset.card

/-- The four statistics lines `StatsPanel.render` emits for one numeric
column (plus its name header). -/
def statBlock (c : Column) : List String :=
  ["\n[yellow]" ++ c.name ++ "[/yellow]",
   "  Min:  " ++ fmt2 (seriesMin c.numVals),
   "  Max:  " ++ fmt2 (seriesMax c.numVals),
   "  Mean: " ++ fmt2 (seriesMean c.numVals),
   "  Std:  " ++ fmt2 (seriesStd c.numVals)]

/-- `StatsPanel.render`: header, then statistics for the first five numeric
columns, then distinct-value counts for the first three object columns.
The source wraps each numeric block in `try/except`, but none of the
operations raises on an all-missing column — pandas aggregations return NaN
and `f".x:.2f."` formats NaN as `"nan"` — so the block is always emitted. -/
def statsPanelRender (df : DataFrame) : List String :=
  (["📊 [bold cyan]Dataset Statistics[/bold cyan]\n",
    "Rows: [green]" ++ toString (dfLen df) ++ "[/green]",
    "Columns: [green]" ++ toString df.cols.length ++ "[/green]\n"]
   ++ (if 0 < (numericCols df).length then
        "[bold cyan]Numeric Columns:[/bold cyan]" ::
          ((numericCols df).take 5).flatMap statBlock
      else [])
   ++ (if 0 < (textCols df).length then
        ("\n[bold cyan]Text Columns:[/bold cyan] " ++ toString (textCols df).length) ::
          ((textCols df).take 3).map (fun c =>
            "  " ++ c.name ++ ": " ++ toString (uniqueCount c) ++ " unique values")
      else []))

/-- C2 (counterexample): a frame with a single numeric column `x` whose two
values are both missing still renders the column, with `nan` for its
statistics — the column is not omitted and NaN does surface. -/
theorem C2_counterexample :
    "\n[yellow]x[/yellow]" ∈
      statsPanelRender (DataFrame.mk [⟨"x", ColData.numeric [none, none]⟩]) ∧
    "  Min:  nan" ∈
      statsPanelRender (DataFrame.mk [⟨"x", ColData.numeric [none, none]⟩]) := by
  constructor <;> decide

/-- C2 (amended): a numeric column among the first five whose values are all
missing is still listed by `StatsPanel.render`, and each of its four
statistics renders as the string `nan` (the `except` branch that would omit
the column never fires, because the aggregations return NaN instead of
raising). -/
theorem C2_all_missing_column (df : DataFrame) (c : Column)
    (hc : c ∈ (numericCols df).take 5)
    (hmiss : c.numVals.filterMap id = []) :
    "\n[yellow]" ++ c.name ++ "[/yellow]" ∈ statsPanelRender df ∧
    "  Min:  nan" ∈ statsPanelRender df ∧
    "  Max:  nan" ∈ statsPanelRender df ∧
    "  Mean: nan" ∈ statsPanelRender df ∧
    "  Std:  nan" ∈ statsPanelRender df := by
  have hne : 0 < (numericCols df).length :=
    List.length_pos.mpr (List.ne_nil_of_mem (List.mem_of_mem_take hc))
  have hblock : ∀ x ∈ statBlock c, x ∈ statsPanelRender df := by
    intro x hx
    rw [statsPanelRender]
    refine List.mem_append.mpr (Or.inl ?_)
    refine List.mem_append.mpr (Or.inr ?_)
    rw [if_pos hne]
    exact List.mem_cons_of_mem _ (List.mem_flatMap.mpr ⟨c, hc, hx⟩)
  have hmin : seriesMin c.numVals = none := by rw [seriesMin, hmiss]
  have hmax : seriesMax c.numVals = none := by rw [seriesMax, hmiss]
  have hmean : seriesMean c.numVals = none := by rw [seriesMean, hmiss]
  have hstd : seriesStd c.numVals = none := by rw [seriesStd, hmiss]
  refine ⟨hblock _ ?_, hblock _ ?_, hblock _ ?_, hblock _ ?_, hblock _ ?_⟩ <;>
    simp [statBlock, hmin, hmax, hmean, hstd, fmt2]

/-- Witness for C2: the amended statement evaluated on a two-column frame
whose numeric column `y` is entirely missing. -/
theorem C2_witness :
    "  Std:  nan" ∈ statsPanelRender (DataFrame.mk
      [⟨"t", ColData.text [some "u"]⟩, ⟨"y", ColData.numeric [none]⟩]) :=
  (C2_all_missing_column
    (DataFrame.mk [⟨"t", ColData.text [some "u"]⟩, ⟨"y", ColData.numeric [none]⟩])
    ⟨"y", ColData.numeric [none]⟩ (by decide) (by decide)).2.2.2.2

/-! ## CategoryChart (`CategoryChart.render`, src/app.py lines 221-248).
`value_counts()` is pandas (external): documented as the distinct values
with their frequencies in descending count order, ties kept in
first-encounter order — i.e. a stable descending sort of the
first-encounter counts. -/

/-- Display string of a cell, modelling Python `str(label)` in the chart
loop (missing cells are dropped by `value_counts` before this point). -/
def Column.dispVals (c : Column) : List (Option String) :=
  match c.data with
  | .numeric vs => vs.map (Option.map qStr)
  | .text vs => vs

/-- First occurrences of the values of a list, in encounter order (the key
order of the hash table underlying pandas `value_counts`). -/
def firstUniques : List String → List String
  | [] => []
  | x :: xs => x :: firstUniques (xs.filter (fun y => y != x))
termination_by l => l.length
decreasing_by
  simp only [List.length_cons]
  exact Nat.lt_succ_of_le (List.length_filter_le _ _)

/-- The distinct values of a list with their frequencies, in first-encounter
order. -/
def countsByFirst (xs : List String) : List (String × ℕ) :=
  (firstUniques xs).map (fun v => (v, xs.count v))

/-- The comparison used to order `value_counts`: descending frequency. -/
def descCount (p q : String × ℕ) : Prop := q.2 ≤ p.2

instance : DecidableRel descCount := fun p q => Nat.decLe q.2 p.2

/-- pandas `Series.value_counts()` with its defaults
(`sort=True, dropna=True`): a stable descending-count sort of the
first-encounter frequency table of the non-missing values. -/
def valueCounts (vs : List (Option String)) : List (String × ℕ) :=
  List.insertionSort descCount (countsByFirst (vs.filterMap id))

/-- The `max_value` of `CategoryChart.render`:
`value_counts.max() if len(value_counts) > 0 else 1`. -/
def vcMaxCount (vc : List (String × ℕ)) : ℕ :=
  match vc with
  | [] => 1
  | p :: ps => (ps.map Prod.snd).foldl max p.2

/-- `CategoryChart.render` bar data: for each of the `head(top_n)` rows of
`value_counts`, the label truncated to 20 characters (`str(label)[:20]`),
the bar length, and the count. -/
def categoryBars (vs : List (Option String)) (topN maxW : ℕ) : List (String × ℕ × ℕ) :=
  ((valueCounts vs).take topN).map (fun p =>
    (pySlice p.1 20,
     barLen (p.2 : ℚ) ((vcMaxCount ((valueCounts vs).take topN) : ℕ) : ℚ) maxW,
     p.2))

/-- One rendered bar line of `CategoryChart.render`:
`f".label_str:20. │ .bar. .count."`. -/
def categoryLine (b : String × ℕ × ℕ) : String :=
  padRight b.1 20 ++ " │ " ++ String.mk (List.replicate b.2.1 '█') ++ " " ++ toString b.2.2

/-- `CategoryChart.render` (default `top_n = 10`, `max_bar_length = 30`). -/
def categoryChartRender (df : DataFrame) (column : String) (topN : ℕ) : List String :=
  match df.cols.find? (fun c => c.name == column) with
  | none => ["Column '" ++ column ++ "' not found"]
  | some c =>
    ("[bold cyan]Top " ++ toString topN ++ " - " ++ column ++ "[/bold cyan]\n") ::
      (categoryBars c.dispVals topN 30).map categoryLine

theorem firstUniques_subset : ∀ (xs : List String), firstUniques xs ⊆ xs := by
  intro xs
  induction xs using firstUniques.induct with
  | case1 => rw [firstUniques]; exact fun _ h => h
  | case2 x xs ih =>
    rw [firstUniques]
    intro y hy
    rcases List.mem_cons.mp hy with rfl | hy
    · exact List.mem_cons_self _ _
    · exact List.mem_cons_of_mem _ (List.mem_of_mem_filter (ih hy))

theorem firstUniques_nodup : ∀ (xs : List String), (firstUniques xs).Nodup := by
  intro xs
  induction xs using firstUniques.induct with
  | case1 => rw [firstUniques]; exact List.nodup_nil
  | case2 x xs ih =>
    rw [firstUniques]
    refine List.nodup_cons.mpr ⟨?_, ih⟩
    intro hx
    have := firstUniques_subset _ hx
    simp [List.mem_filter] at this

theorem firstUniques_toFinset : ∀ (xs : List String),
    (firstUniques xs).toFinset = xs.toFinset := by
  intro xs
  induction xs using firstUniques.induct with
  | case1 => rw [firstUniques]
  | case2 x xs ih =>
    rw [firstUniques]
    ext y
    simp only [List.toFinset_cons, Finset.mem_insert, List.mem_toFinset] at *
    constructor
    · rintro (rfl | hy)
      · exact Or.inl rfl
      · have : y ∈ xs.filter (fun z => z != x) := by
          rw [← List.mem_toFinset, ← ih, List.mem_toFinset]
          exact hy
        exact Or.inr (List.mem_of_mem_filter this)
    · rintro (rfl | hy)
      · exact Or.inl rfl
      · by_cases hyx : y = x
        · exact Or.inl hyx
        · refine Or.inr ?_
          rw [← List.mem_toFinset, ih, List.mem_toFinset, List.mem_filter]
          simp [hy, hyx]

theorem length_firstUniques (xs : List String) :
    (firstUniques xs).length = xs.toFinset.card := by
  rw [← firstUniques_toFinset, List.toFinset_card_of_nodup (firstUniques_nodup xs)]

theorem filter_orderedInsert_of_ne (k : ℕ) (a : String × ℕ) (l : List (String × ℕ))
    (ha : (a.2 == k) = false) :
    (List.orderedInsert descCount a l).filter (fun p => p.2 == k) =
      l.filter (fun p => p.2 == k) := by
  induction l with
  | nil => simp [List.orderedInsert, List.filter, ha]
  | cons b t ih =>
    rw [List.orderedInsert]
    by_cases h : descCount a b
    · rw [if_pos h, List.filter_cons, if_neg (by simp [ha])]
    · rw [if_neg h, List.filter_cons, List.filter_cons (x := b)]
      rw [ih]

theorem filter_orderedInsert_of_eq (k : ℕ) (a : String × ℕ) (l : List (String × ℕ))
    (ha : (a.2 == k) = true) :
    (List.orderedInsert descCount a l).filter (fun p => p.2 == k) =
      a :: l.filter (fun p => p.2 == k) := by
  induction l with
  | nil => simp [List.orderedInsert, List.filter, ha]
  | cons b t ih =>
    rw [List.orderedInsert]
    by_cases h : descCount a b
    · rw [if_pos h, List.filter_cons, if_pos (by simp [ha])]
    · rw [if_neg h, List.filter_cons]
      have hbk : (b.2 == k) = false := by
        rw [descCount] at h
        push_neg at h
        have hak : a.2 = k := by simpa using ha
        simp only [beq_eq_false_iff_ne, ne_eq]
        omega
      rw [if_neg (by simp [hbk]), ih, List.filter_cons, if_neg (by simp [hbk])]

/-- Stability of the `value_counts` sort: within one frequency level, the
sorted order is the first-encounter order. -/
theorem filter_insertionSort_count (k : ℕ) (l : List (String × ℕ)) :
    (List.insertionSort descCount l).filter (fun p => p.2 == k) =
      l.filter (fun p => p.2 == k) := by
  induction l with
  | nil => rfl
  | cons a t ih =>
    rw [List.insertionSort]
    by_cases ha : (a.2 == k) = true
    · rw [filter_orderedInsert_of_eq k a _ ha, ih, List.filter_cons, if_pos ha]
    · have ha2 : (a.2 == k) = false := by simpa using ha
      rw [filter_orderedInsert_of_ne k a _ ha2, ih, List.filter_cons, if_neg (by simp [ha2])]

theorem sorted_valueCounts (vs : List (Option String)) :
    List.Sorted descCount (valueCounts vs) := by
  letI : IsTotal (String × ℕ) descCount := ⟨fun a b => by
    rw [descCount, descCount]; omega⟩
  letI : IsTrans (String × ℕ) descCount := ⟨fun a b c h1 h2 => by
    rw [descCount] at *; omega⟩
  exact List.sorted_insertionSort descCount _

/-- C6: `CategoryChart.render` on an existing column emits a title followed
by one line per `value_counts` row: at most `topN = 10` bar lines, exactly
`min topN (number of distinct non-missing values)` of them; their counts are
non-increasing; ties are broken by first-encounter order (the rows at any
one frequency are exactly the first-encounter rows of that frequency, in
order); every label is truncated to at most 20 characters. -/
theorem C6_top_categories (df : DataFrame) (column : String) (c : Column)
    (hc : df.cols.find? (fun d => d.name == column) = some c) :
    categoryChartRender df column 10 =
      ("[bold cyan]Top 10 - " ++ column ++ "[/bold cyan]\n") ::
        (categoryBars c.dispVals 10 30).map categoryLine ∧
    (categoryBars c.dispVals 10 30).length =
      min 10 (c.dispVals.filterMap id).toFinset.card ∧
    List.Sorted (fun a b => b ≤ a)
      ((categoryBars c.dispVals 10 30).map (fun b => b.2.2)) ∧
    (∀ b ∈ categoryBars c.dispVals 10 30, b.1.data.length ≤ 20) ∧
    (∀ k : ℕ, (valueCounts c.dispVals).filter (fun p => p.2 == k) =
      (countsByFirst (c.dispVals.filterMap id)).filter (fun p => p.2 == k)) := by
  refine ⟨?_, ?_, ?_, ?_, fun k => filter_insertionSort_count k _⟩
  · simp only [categoryChartRender, hc]
    congr 1
  · rw [categoryBars, List.length_map, List.length_take, valueCounts]
    rw [(List.perm_insertionSort descCount _).length_eq, countsByFirst,
      List.length_map, length_firstUniques]
  · rw [categoryBars, List.map_map]
    have hmap : ((fun b : String × ℕ × ℕ => b.2.2) ∘ (fun p : String × ℕ =>
        (pySlice p.1 20,
         barLen (p.2 : ℚ) ((vcMaxCount ((valueCounts c.dispVals).take 10) : ℕ) : ℚ) 30,
         p.2))) = fun p : String × ℕ => p.2 := rfl
    rw [hmap]
    have hsorted : List.Sorted descCount ((valueCounts c.dispVals).take 10) :=
      List.Pairwise.sublist (List.take_sublist _ _) (sorted_valueCounts c.dispVals)
    exact List.Pairwise.map _ (fun a b hab => hab) hsorted
  · intro b hb
    rw [categoryBars] at hb
    rcases List.mem_map.mp hb with ⟨p, hp, rfl⟩
    simp only [pySlice]
    exact List.length_take_le 20 p.1.data

/-- Witness for C6: a column with three distinct values and a frequency tie,
checked through the theorem at a concrete frame. -/
theorem C6_witness :
    (categoryBars (Column.dispVals ⟨"kind", ColData.text
        [some "b", some "a", some "a", some "c"]⟩) 10 30).length =
      min 10 ((Column.dispVals ⟨"kind", ColData.text
        [some "b", some "a", some "a", some "c"]⟩).filterMap id).toFinset.card :=
  (C6_top_categories
    (DataFrame.mk [⟨"kind", ColData.text [some "b", some "a", some "a", some "c"]⟩])
    "kind" ⟨"kind", ColData.text [some "b", some "a", some "a", some "c"]⟩
    (by decide)).2.1

/-! ## Histogram (`render_ai_charts` histogram branch, src/app.py lines
519-533). `np.histogram(data, bins=10)` is numpy (external), modelled from
its documented behaviour: 10 equal-width bins on `[min, max]` of the data,
all bins half-open except the last (closed); an empty range is expanded to
`(v - 0.5, v + 0.5)` and empty data uses the default range `(0, 1)`. -/

theorem init_ge_foldl_min {α} [LinearOrder α] (x : α) (l : List α) :
    l.foldl min x ≤ x := by
  induction l generalizing x with
  | nil => exact le_refl x
  | cons a t ih => exact le_trans (ih (min x a)) (min_le_left x a)

theorem foldl_min_le {α} [LinearOrder α] {y : α} (x : α) (l : List α)
    (h : y = x ∨ y ∈ l) : l.foldl min x ≤ y := by
  induction l generalizing x with
  | nil =>
    rcases h with rfl | h
    · exact le_refl y
    · cases h
  | cons a t ih =>
    simp only [List.foldl_cons]
    rcases h with rfl | h
    · exact le_trans (init_ge_foldl_min _ t) (min_le_left y a)
    · rcases List.mem_cons.mp h with rfl | h
      · exact le_trans (init_ge_foldl_min _ t) (min_le_right x y)
      · exact ih (min x a) (Or.inr h)

/-- The data minimum seen by `np.histogram` (junk value `0` on empty input,
matching numpy's default range lower bound). -/
def listMin : List ℚ → ℚ
  | [] => 0
  | x :: t => t.foldl min x

/-- The data maximum seen by `np.histogram` (junk value `1` on empty input,
matching numpy's default range upper bound). -/
def listMax : List ℚ → ℚ
  | [] => 1
  | x :: t => t.foldl max x

/-- The histogram range `(first_edge, last_edge)` used by `np.histogram`:
`(min, max)` of the data, expanded to `(v - 0.5, v + 0.5)` when all values
are equal, and `(0, 1)` for empty data. -/
def histBounds (xs : List ℚ) : ℚ × ℚ :=
  match xs with
  | [] => (0, 1)
  | x :: t =>
    if t.foldl min x = t.foldl max x then
      (t.foldl min x - 1/2, t.foldl max x + 1/2)
    else (t.foldl min x, t.foldl max x)

/-- Bin edge `i` of `np.histogram` with `bins` equal-width bins on
`[lo, hi]`. -/
def histEdge (lo hi : ℚ) (bins i : ℕ) : ℚ := lo + (i : ℚ) * (hi - lo) / (bins : ℚ)

/-- Membership of `v` in bin `j` of `np.histogram`: every bin is half-open
except the last, which is closed. -/
def inBin (lo hi : ℚ) (bins j : ℕ) (v : ℚ) : Bool :=
  if j + 1 = bins then
    decide (histEdge lo hi bins j ≤ v ∧ v ≤ histEdge lo hi bins (j + 1))
  else
    decide (histEdge lo hi bins j ≤ v ∧ v < histEdge lo hi bins (j + 1))

/-- The `hist` array of `np.histogram(xs, bins)`. -/
def histCounts (xs : List ℚ) (bins : ℕ) : List ℕ :=
  (List.range bins).map (fun j =>
    xs.countP (inBin (histBounds xs).1 (histBounds xs).2 bins j))

theorem histEdge_le_iff (lo hi : ℚ) (bins j : ℕ) (v : ℚ) (hb : 0 < bins)
    (hd : 0 < hi - lo) :
    (histEdge lo hi bins j ≤ v ↔ (j : ℚ) ≤ (v - lo) * bins / (hi - lo)) := by
  have hn : (0 : ℚ) < (bins : ℚ) := by exact_mod_cast hb
  rw [histEdge, le_div_iff hd]
  constructor
  · intro h
    have h2 : (j : ℚ) * (hi - lo) / (bins : ℚ) ≤ v - lo := by linarith
    rw [div_le_iff hn] at h2
    exact h2
  · intro h
    have h2 : (j : ℚ) * (hi - lo) / (bins : ℚ) ≤ v - lo := by
      rw [div_le_iff hn]
      exact h
    linarith

theorem lt_histEdge_iff (lo hi : ℚ) (bins j : ℕ) (v : ℚ) (hb : 0 < bins)
    (hd : 0 < hi - lo) :
    (v < histEdge lo hi bins j ↔ (v - lo) * bins / (hi - lo) < (j : ℚ)) := by
  rw [← not_le, ← not_le, histEdge_le_iff lo hi bins j v hb hd]

theorem histEdge_zero (lo hi : ℚ) (bins : ℕ) : histEdge lo hi bins 0 = lo := by
  rw [histEdge]
  norm_num

theorem histEdge_last (lo hi : ℚ) (bins : ℕ) (hb : 0 < bins) :
    histEdge lo hi bins bins = hi := by
  rw [histEdge]
  have hbq : ((bins : ℚ)) ≠ 0 := by positivity
  field_simp

theorem histEdge_width (lo hi : ℚ) (bins j : ℕ) (hb : 0 < bins) :
    histEdge lo hi bins (j + 1) - histEdge lo hi bins j = (hi - lo) / bins := by
  have hbq : ((bins : ℚ)) ≠ 0 := by positivity
  rw [histEdge, histEdge]
  push_cast
  field_simp
  ring

/-- Each value of `[lo, hi]` lies in exactly one of the `bins` bins: bin
membership holds exactly for the index `min (bins - 1) ⌊(v - lo)·bins/(hi - lo)⌋`. -/
theorem inBin_iff_eq (lo hi : ℚ) (bins : ℕ) (v : ℚ) (hb : 0 < bins)
    (hd : lo < hi) (hv1 : lo ≤ v) (hv2 : v ≤ hi) (j : ℕ) (hj : j < bins) :
    (inBin lo hi bins j v = true ↔
      j = min (bins - 1) (⌊(v - lo) * bins / (hi - lo)⌋).toNat) := by
  have hd2 : (0 : ℚ) < hi - lo := by linarith
  set t : ℚ := (v - lo) * bins / (hi - lo) with ht
  have hvlo : (0 : ℚ) ≤ v - lo := by linarith
  have ht0 : 0 ≤ t := by
    rw [ht]
    exact div_nonneg (mul_nonneg hvlo (by positivity)) (le_of_lt hd2)
  have hK0 : 0 ≤ ⌊t⌋ := Int.floor_nonneg.mpr ht0
  by_cases hlast : j + 1 = bins
  · have hEq : inBin lo hi bins j v = true ↔ (j : ℚ) ≤ t := by
      rw [inBin, if_pos hlast, decide_eq_true_eq, hlast,
        histEdge_last lo hi bins hb, histEdge_le_iff lo hi bins j v hb hd2, ← ht]
      exact and_iff_left hv2
    rw [hEq]
    have hjK : ((j : ℚ) ≤ t) ↔ ((j : ℤ) ≤ ⌊t⌋) := by
      constructor
      · intro h
        exact Int.le_floor.mpr (by exact_mod_cast h)
      · intro h
        exact_mod_cast Int.le_floor.mp h
    rw [hjK]
    omega
  · have hEq : inBin lo hi bins j v = true ↔
        ((j : ℚ) ≤ t ∧ t < ((j + 1 : ℕ) : ℚ)) := by
      rw [inBin, if_neg hlast, decide_eq_true_eq,
        histEdge_le_iff lo hi bins j v hb hd2,
        lt_histEdge_iff lo hi bins (j + 1) v hb hd2, ← ht]
    rw [hEq]
    have hfloor : ((j : ℚ) ≤ t ∧ t < ((j + 1 : ℕ) : ℚ)) ↔ ⌊t⌋ = (j : ℤ) := by
      rw [Int.floor_eq_iff]
      constructor
      · rintro ⟨h1, h2⟩
        refine ⟨by exact_mod_cast h1, ?_⟩
        push_cast at h2 ⊢
        linarith
      · rintro ⟨h1, h2⟩
        refine ⟨by exact_mod_cast h1, ?_⟩
        push_cast at h2 ⊢
        linarith
    rw [hfloor]
    omega

theorem list_sum_map_add {α : Type} (l : List α) (f g : α → ℕ) :
    (l.map (fun x => f x + g x)).sum = (l.map f).sum + (l.map g).sum := by
  induction l with
  | nil => rfl
  | cons a t ih =>
    simp only [List.map_cons, List.sum_cons, ih]
    omega

theorem sum_indicator_unique (n J : ℕ) (hJ : J < n) (p : ℕ → Bool)
    (hp : ∀ j < n, (p j = true ↔ j = J)) :
    ((List.range n).map (fun j => if p j = true then 1 else 0)).sum = 1 := by
  induction n with
  | zero => omega
  | succ m ih =>
    rw [List.range_succ, List.map_append, List.sum_append]
    by_cases hJm : J = m
    · have hsum0 : ((List.range m).map (fun j => if p j = true then 1 else 0)).sum = 0 := by
        apply List.sum_eq_zero
        intro x hx
        rcases List.mem_map.mp hx with ⟨j, hjm, rfl⟩
        have hjm2 : j < m := List.mem_range.mp hjm
        have := hp j (by omega)
        have hpj : ¬ (p j = true) := by
          rw [this]
          omega
        simp [hpj]
      have hpm : p m = true := (hp m (by omega)).mpr hJm.symm
      rw [hsum0]
      simp [hpm]
    · have hJm2 : J < m := by omega
      have ihh := ih hJm2 (fun j hj => hp j (by omega))
      rw [ihh]
      have hpm : ¬ (p m = true) := by
        rw [hp m (by omega)]
        omega
      simp [hpm]

/-- The bin counts of `np.histogram` with a positive-width range add up to
the number of data points inside the range. -/
theorem countP_bins_sum (lo hi : ℚ) (bins : ℕ) (hb : 0 < bins) (hd : lo < hi) :
    ∀ xs : List ℚ, (∀ v ∈ xs, lo ≤ v ∧ v ≤ hi) →
      ((List.range bins).map (fun j => xs.countP (inBin lo hi bins j))).sum = xs.length := by
  intro xs
  induction xs with
  | nil =>
    intro _
    simp only [List.countP_nil, List.length_nil]
    exact List.sum_eq_zero (fun x hx => by
      rcases List.mem_map.mp hx with ⟨j, _, rfl⟩
      rfl)
  | cons v t ih =>
    intro hxs
    have hv := hxs v (List.mem_cons_self v t)
    have hsum := ih (fun w hw => hxs w (List.mem_cons_of_mem v hw))
    simp only [List.countP_cons]
    rw [list_sum_map_add (List.range bins)
      (fun j => t.countP (inBin lo hi bins j))
      (fun j => if inBin lo hi bins j v = true then 1 else 0), hsum]
    have hJ : min (bins - 1) (⌊(v - lo) * bins / (hi - lo)⌋).toNat < bins := by omega
    have hone := sum_indicator_unique bins
      (min (bins - 1) (⌊(v - lo) * bins / (hi - lo)⌋).toNat) hJ
      (fun j => inBin lo hi bins j v)
      (fun j hj => inBin_iff_eq lo hi bins v hb hd hv.1 hv.2 j hj)
    rw [hone, List.length_cons]

theorem mem_le_listMax {xs : List ℚ} {v : ℚ} (hv : v ∈ xs) : v ≤ listMax xs := by
  cases xs with
  | nil => cases hv
  | cons x t =>
    rcases List.mem_cons.mp hv with rfl | h
    · exact le_foldl_max _ _ (Or.inl rfl)
    · exact le_foldl_max _ _ (Or.inr h)

theorem listMin_le_mem {xs : List ℚ} {v : ℚ} (hv : v ∈ xs) : listMin xs ≤ v := by
  cases xs with
  | nil => cases hv
  | cons x t =>
    rcases List.mem_cons.mp hv with rfl | h
    · exact foldl_min_le _ _ (Or.inl rfl)
    · exact foldl_min_le _ _ (Or.inr h)

theorem histBounds_of_lt {xs : List ℚ} (h : listMin xs < listMax xs) :
    histBounds xs = (listMin xs, listMax xs) := by
  cases xs with
  | nil => rfl
  | cons x t =>
    rw [histBounds, listMin, listMax] at *
    rw [if_neg (ne_of_lt h)]

/-- C7 (counterexample): on the single-value input `[5]`, `np.histogram`
expands the degenerate range, so the bin edges span `[4.5, 5.5]`, not
`[min, max] = [5, 5]` of the input. -/
theorem C7_counterexample :
    (histBounds [(5 : ℚ)]).1 ≠ listMin [(5 : ℚ)] ∧
      (histBounds [(5 : ℚ)]).2 ≠ listMax [(5 : ℚ)] := by
  constructor <;>
    · simp only [histBounds, listMin, listMax, List.foldl_nil, if_pos rfl]
      norm_num

/-- C7 (amended): for a non-empty input whose non-missing values contain at
least two distinct numbers, the histogram range is exactly `[min, max]` of
the non-missing values, the `binCount = 10` bin edges partition it into
equal-width intervals (first edge `min`, last edge `max`, all widths
`(max - min)/10`), there are exactly 10 bins, and the bin counts sum to the
number of non-missing values. (For an all-equal or empty data list numpy
widens the range, so the edges provably do not span `[min, max]` there.) -/
theorem C7_histogram (values : List (Option ℚ)) (xs : List ℚ)
    (hxs : xs = values.filterMap id) (hne : values ≠ [])
    (hlt : listMin xs < listMax xs) :
    histBounds xs = (listMin xs, listMax xs) ∧
    histEdge (listMin xs) (listMax xs) 10 0 = listMin xs ∧
    histEdge (listMin xs) (listMax xs) 10 10 = listMax xs ∧
    (∀ j, histEdge (listMin xs) (listMax xs) 10 (j + 1) -
        histEdge (listMin xs) (listMax xs) 10 j = (listMax xs - listMin xs) / 10) ∧
    (histCounts xs 10).length = 10 ∧
    (histCounts xs 10).sum = xs.length := by
  have hb : histBounds xs = (listMin xs, listMax xs) := histBounds_of_lt hlt
  refine ⟨hb, histEdge_zero _ _ _, histEdge_last _ _ _ (by norm_num),
    fun j => histEdge_width _ _ _ j (by norm_num), ?_, ?_⟩
  · rw [histCounts, List.length_map, List.length_range]
  · rw [histCounts, hb]
    exact countP_bins_sum (listMin xs) (listMax xs) 10 (by norm_num) hlt xs
      (fun v hv => ⟨listMin_le_mem hv, mem_le_listMax hv⟩)

/-- Witness for C7: the two-value input `[1, 3]` (with one missing cell
dropped) has bin counts summing to its length. -/
theorem C7_witness :
    (histCounts [(1 : ℚ), 3] 10).sum = [(1 : ℚ), 3].length :=
  (C7_histogram [some 1, none, some 3] [(1 : ℚ), 3] (by decide) (by decide)
    (by decide)).2.2.2.2.2

/-! ## AI chart suggestions (`DataViewerScreen.render_ai_charts`,
src/app.py lines 488-540). Each suggestion is a parsed JSON object read
with `.get`; a reference to a missing column appends an inline `[red]` line
for that suggestion only, and the loop continues with the next one. -/

/-- A chart suggestion as parsed from the gateway JSON: the dict fields the
source reads with `item.get(...)` (absent keys give `None`). -/
structure Suggestion where
  title : Option String
  type : Option String
  column : Option String
  xColumn : Option String
  yColumn : Option String
  explanation : Option String
deriving DecidableEq

/-- Python f-string interpolation of a possibly-`None` value. -/
def pyOptStr (o : Option String) : String :=
  match o with
  | none => "None"
  | some s => s

/-- Column lookup `name in self.df.columns` / `self.df[name]`. -/
def dfLookup (df : DataFrame) (name : String) : Option Column :=
  df.cols.find? (fun c => c.name == name)

/-- An inline error line `f"[red]...[/red]"`. -/
def redLine (msg : String) : String := "[red]" ++ msg ++ "[/red]"

/-- Recognizer for inline error lines (starts with the `[red]` markup). -/
def isRedLine (s : String) : Bool := s.data.take 5 == "[red]".data

theorem isRedLine_redLine (m : String) : isRedLine (redLine m) = true := by
  rw [isRedLine, redLine, String.data_append, String.data_append, List.append_assoc,
    List.take_append_of_le_length (by decide)]
  decide

/-- Python code-point lexicographic order on strings (used to model the
sorted group keys of pandas `groupby`). -/
def charListLtB : List Char → List Char → Bool
  | [], [] => false
  | [], _ :: _ => true
  | _ :: _, [] => false
  | a :: as, b :: bs =>
    if a.toNat < b.toNat then true
    else if b.toNat < a.toNat then false
    else charListLtB as bs

def strLe (a b : String) : Prop := charListLtB a.data b.data = true ∨ a = b

instance : DecidableRel strLe := fun a b => inferInstanceAs (Decidable (_ ∨ _))

/-- pandas `df.groupby(x)[y].sum().head(10).to_dict()` (external), modelled
from its documented behaviour: rows with a missing group key are dropped,
group keys are sorted ascending (`sort=True` default), the per-group sum
skips missing values (an all-missing group sums to 0), and `head(10)` keeps
the first ten groups. -/
def groupbySum (xs : List (Option String)) (ys : List (Option ℚ)) : List (String × ℚ) :=
  let pairs := xs.zip ys
  ((List.insertionSort strLe (firstUniques (xs.filterMap id))).take 10).map (fun k =>
    (k, (pairs.filterMap (fun p => if p.1 = some k then p.2 else none)).sum))

/-- `max(hist) if len(hist) > 0 else 1` over the numpy count array. -/
def npMaxNat (l : List ℕ) : ℕ :=
  match l with
  | [] => 1
  | x :: t => t.foldl max x

/-- Python `f".x:.1f."` formatting (one decimal place). -/
def fmt1 (q : ℚ) : String :=
  let n : ℤ := round (q * 10)
  let sign := if n < 0 then "-" else ""
  let a := n.natAbs
  sign ++ toString (a / 10) ++ "." ++ toString (a % 10)

/-- The rendered lines of the histogram branch of `render_ai_charts`:
one `f".bin_label:15. │ .bar. .count."` line per bin. -/
def histLines (vals : List (Option ℚ)) : List String :=
  let xs := vals.filterMap id
  let lo := (histBounds xs).1
  let hi := (histBounds xs).2
  let hist := histCounts xs 10
  (List.range 10).map (fun i =>
    padRight (fmt1 (histEdge lo hi 10 i) ++ "-" ++ fmt1 (histEdge lo hi 10 (i + 1))) 15
      ++ " │ "
      ++ String.mk (List.replicate
          (barLen ((hist.getD i 0 : ℕ) : ℚ) ((npMaxNat hist : ℕ) : ℚ) 30) '█')
      ++ " " ++ toString (hist.getD i 0))

def suggTitle (item : Suggestion) : String :=
  "\n[bold yellow]" ++ item.title.getD "Chart" ++ "[/bold yellow]"

def suggExpl (item : Suggestion) : String :=
  "[italic]" ++ item.explanation.getD "" ++ "[/italic]"

/-- The `"\n" + "─" * 40` separator appended after a suggestion when no
exception escaped its `try` block. -/
def suggSep : String := "\n" ++ String.mk (List.replicate 40 '─')

/-- The lines `render_ai_charts` appends for one suggestion: title and
explanation, then the branch on `item.get("type")`. A missing column gives
the inline `[red]` message of the source (and the loop continues); a bar
suggestion whose `y` column is non-numeric raises inside the outer `try`
(pandas sums the strings, then `BarChart.render` divides them), so the
`except` appends the error line and the separator is skipped; a histogram
on a non-numeric column is caught by the inner `try`. -/
def renderSuggestion (df : DataFrame) (item : Suggestion) : List String :=
  match item.type with
  | some "bar" =>
    match item.xColumn.bind (dfLookup df), item.yColumn.bind (dfLookup df) with
    | some cx, some cy =>
      match cy.data with
      | .numeric yvals =>
        [suggTitle item, suggExpl item,
         String.intercalate "\n" (barChartRender (groupbySum cx.dispVals yvals) 40),
         suggSep]
      | .text _ =>
        [suggTitle item, suggExpl item,
         redLine "Error rendering chart: unsupported operand"]
    | _, _ =>
      [suggTitle item, suggExpl item,
       redLine ("Columns " ++ pyOptStr item.xColumn ++ " or " ++ pyOptStr item.yColumn
         ++ " not found"), suggSep]
  | some "pie" =>
    match item.column.bind (dfLookup df) with
    | some _ =>
      [suggTitle item, suggExpl item,
       String.intercalate "\n" (categoryChartRender df (pyOptStr item.column) 10),
       suggSep]
    | none =>
      [suggTitle item, suggExpl item,
       redLine ("Column " ++ pyOptStr item.column ++ " not found"), suggSep]
  | some "histogram" =>
    match item.column.bind (dfLookup df) with
    | some c =>
      match c.data with
      | .numeric vals => suggTitle item :: suggExpl item :: histLines vals ++ [suggSep]
      | .text _ =>
        [suggTitle item, suggExpl item, redLine "Could not create histogram", suggSep]
    | none =>
      [suggTitle item, suggExpl item,
       redLine ("Column " ++ pyOptStr item.column ++ " not found"), suggSep]
  | _ => [suggTitle item, suggExpl item, suggSep]

/-- `DataViewerScreen.render_ai_charts`: a header line, then the lines of
each suggestion in order. -/
def renderAiCharts (df : DataFrame) (suggestions : List Suggestion) : List String :=
  "[bold cyan]🤖 AI Suggested Visualizations[/bold cyan]\n" ::
    suggestions.flatMap (renderSuggestion df)

/-- C8: per-suggestion failure isolation. The output of `render_ai_charts`
is the header followed by each suggestion's own block, so a failing
suggestion influences nothing outside its block; and a suggestion
referencing a missing column (bar, pie or histogram) or a histogram over
values that cannot be coerced to numeric produces an inline `[red]` error
line inside its own block, while every suggestion before and after still
renders. -/
theorem C8_suggestion_isolation (df : DataFrame) (pre post : List Suggestion)
    (bad : Suggestion)
    (hbad :
      (bad.type = some "bar" ∧ (bad.xColumn.bind (dfLookup df) = none ∨
        bad.yColumn.bind (dfLookup df) = none)) ∨
      (bad.type = some "pie" ∧ bad.column.bind (dfLookup df) = none) ∨
      (bad.type = some "histogram" ∧ (bad.column.bind (dfLookup df) = none ∨
        (∃ c, bad.column.bind (dfLookup df) = some c ∧ c.isTextCol = true)))) :
    renderAiCharts df (pre ++ bad :: post) =
      "[bold cyan]🤖 AI Suggested Visualizations[/bold cyan]\n" ::
        (pre.flatMap (renderSuggestion df) ++ (renderSuggestion df bad
          ++ post.flatMap (renderSuggestion df))) ∧
    (∃ msg ∈ renderSuggestion df bad, isRedLine msg = true) := by
  constructor
  · rw [renderAiCharts, List.flatMap_append, List.flatMap_cons]
  · obtain ⟨ttl, typ, scol, xc, yc, exp2⟩ := bad
    rcases hbad with ⟨htype, hx | hy⟩ | ⟨htype, hcol⟩ | ⟨htype, hcol | ⟨c, hc, htext⟩⟩ <;>
      simp only at htype <;> subst htype
    · refine ⟨redLine ("Columns " ++ pyOptStr xc ++ " or " ++ pyOptStr yc ++ " not found"),
        ?_, isRedLine_redLine _⟩
      simp only at hx
      simp [renderSuggestion, hx]
    · simp only at hy
      rcases hxv : Option.bind xc (dfLookup df) with _ | cx <;>
        · refine ⟨redLine ("Columns " ++ pyOptStr xc ++ " or " ++ pyOptStr yc ++ " not found"),
            ?_, isRedLine_redLine _⟩
          simp [renderSuggestion, hxv, hy]
    · refine ⟨redLine ("Column " ++ pyOptStr scol ++ " not found"), ?_, isRedLine_redLine _⟩
      simp only at hcol
      simp [renderSuggestion, hcol]
    · refine ⟨redLine ("Column " ++ pyOptStr scol ++ " not found"), ?_, isRedLine_redLine _⟩
      simp only at hcol
      simp [renderSuggestion, hcol]
    · simp only at hc
      rcases hcd : c.data with vals | vals
      · rw [Column.isTextCol, hcd] at htext
        cases htext
      · refine ⟨redLine "Could not create histogram", ?_, isRedLine_redLine _⟩
        simp [renderSuggestion, hc, hcd]

/-- Witness for C8: a pie suggestion naming an absent column, between two
other suggestions, renders its own inline error while the surrounding
blocks are unaffected. -/
theorem C8_witness :
    ∃ msg ∈ renderSuggestion (DataFrame.mk [⟨"n", ColData.numeric [some 1]⟩])
      ⟨none, some "pie", some "zzz", none, none, none⟩, isRedLine msg = true :=
  (C8_suggestion_isolation (DataFrame.mk [⟨"n", ColData.numeric [some 1]⟩])
    [⟨none, some "histogram", some "n", none, none, none⟩]
    [⟨none, none, none, none, none, none⟩]
    ⟨none, some "pie", some "zzz", none, none, none⟩
    (Or.inr (Or.inl ⟨rfl, by decide⟩))).2

/-! ## DataViewerScreen load lifecycle and error display
(`DataViewerScreen.load_data` / `generate_ai_charts` / `show_error`,
src/app.py lines 394-407, 434-486 and 542-544). The body of `show_error`
is literally `pass` (its comment says "Show error in a label or modal"),
so every error path leaves the screen exactly as it was. -/

/-- The visible content of a `DataViewerScreen`: the data table, the
statistics panel text and the charts panel text. -/
structure ViewerState where
  tableCols : List String
  tableRows : List (List String)
  statsText : String
  chartsText : String
deriving DecidableEq

/-- Display strings of a column after `fillna("")` (per cell `str(cell)`). -/
def colDisp (c : Column) : List String :=
  match c.data with
  | .numeric vs => vs.map (fun v => match v with | some q => qStr q | none => "")
  | .text vs => vs.map (fun v => match v with | some s => s | none => "")

/-- The display rows of the data table (row-major). -/
def dfDisplayRows (df : DataFrame) : List (List String) :=
  (List.range (dfLen df)).map (fun i => df.cols.map (fun c => (colDisp c).getD i ""))

/-- `DataViewerScreen.populate_ui` (with `populate_statistics` and
`populate_charts`): fills the table, the statistics panel, and puts the
waiting placeholder into the charts panel before the AI call starts. -/
def populateUi (st : ViewerState) (df : DataFrame) : ViewerState :=
  { st with
      tableCols := df.cols.map (·.name),
      tableRows := dfDisplayRows df,
      statsText := String.intercalate "\n" (statsPanelRender df),
      chartsText := "🤖 Asking AI for visualization suggestions...\n(This might take a few seconds)" }

/-- `DataViewerScreen.show_error`: the body is `pass`, so the state is
returned unchanged and the error text is never displayed. -/
def showError (st : ViewerState) (err : String) : ViewerState := st

/-- `DataViewerScreen.load_data`: read the sheet; on success populate the
UI; on any exception call `show_error(str(e))`. -/
def loadData (st : ViewerState) (result : Except String DataFrame) : ViewerState :=
  match result with
  | .ok df => populateUi st df
  | .error e => showError st e

/-- Python `str.strip()` (whitespace trimmed from both ends, by code
points). -/
def pyStrip (s : String) : String :=
  ⟨((s.data.dropWhile Char.isWhitespace).reverse.dropWhile Char.isWhitespace).reverse⟩

/-- The code-fence stripping of `generate_ai_charts`: strip whitespace,
then drop a leading ```` ```json ````, then a leading ```` ``` ````, then a
trailing ```` ``` ```` (Python slices, by code points). -/
def stripFences (s : String) : String :=
  let t0 := pyStrip s
  let t1 : String := if t0.data.take 7 = "```json".data then ⟨t0.data.drop 7⟩ else t0
  let t2 : String := if t1.data.take 3 = "```".data then ⟨t1.data.drop 3⟩ else t1
  if t2.data.drop (t2.data.length - 3) = "```".data then
    ⟨t2.data.take (t2.data.length - 3)⟩
  else t2

/-- `DataViewerScreen.generate_ai_charts`, from the point where the gateway
response text is available: `parse` stands for the external
`json.loads`-plus-shape step (`none` = any exception while parsing), and
the remote call itself is outside the model. With a missing key, or on a
parse failure, the source calls `show_error`, which does nothing. -/
def generateAiCharts (parse : String → Option (List Suggestion)) (st : ViewerState)
    (df : DataFrame) (apiKey : Option String) (resp : String) : ViewerState :=
  if envTruthy apiKey = false then showError st "No API Key found"
  else
    match parse (stripFences resp) with
    | some suggestions =>
      { st with chartsText := String.intercalate "\n" (renderAiCharts df suggestions) }
    | none => showError st "AI Error: malformed response"

/-- C3: when the gateway response, after code-fence stripping, fails to
parse, `generate_ai_charts` leaves the whole screen state unchanged — the
populated data and statistics sub-views survive (the true half of the
claim), but no `GatewayError` message is shown in the charts sub-view
either, because `show_error` is `pass`. -/
theorem C3_malformed_json_no_message (parse : String → Option (List Suggestion))
    (st : ViewerState) (df : DataFrame) (key : Option String) (resp : String)
    (hkey : envTruthy key = true)
    (hbad : parse (stripFences resp) = none) :
    generateAiCharts parse st df key resp = st ∧
    (generateAiCharts parse st df key resp).statsText = st.statsText ∧
    (generateAiCharts parse st df key resp).tableRows = st.tableRows ∧
    (generateAiCharts parse st df key resp).chartsText = st.chartsText := by
  have h : generateAiCharts parse st df key resp = st := by
    rw [generateAiCharts, if_neg (by simp [hkey]), hbad]
    rfl
  exact ⟨h, by rw [h], by rw [h], by rw [h]⟩

/-- Witness for C3: a concrete populated screen is untouched by a fenced,
malformed response. -/
theorem C3_witness :
    generateAiCharts (fun _ => none)
      ⟨["a"], [["1"]], "stats", "placeholder"⟩
      (DataFrame.mk [⟨"a", ColData.numeric [some 1]⟩]) (some "key") "```json oops```" =
      ⟨["a"], [["1"]], "stats", "placeholder"⟩ :=
  (C3_malformed_json_no_message (fun _ => none)
    ⟨["a"], [["1"]], "stats", "placeholder"⟩
    (DataFrame.mk [⟨"a", ColData.numeric [some 1]⟩]) (some "key") "```json oops```"
    (by decide) rfl).1

/-- C4: when the sheet read raises, `load_data` calls `show_error`, whose
body is `pass`: the screen state is completely unchanged — statistics and
charts are indeed not attempted and the application does not terminate, but
the error text is not displayed inline either. -/
theorem C4_failed_read_noop (st : ViewerState) (e : String) :
    loadData st (Except.error e) = st := rfl

/-! ## Gateway request assembly (`generate_ai_charts` prompt,
src/app.py lines 445-470). -/

/-- `self.df.head(5)`: the frame restricted to its first five rows (each
column keeps its dtype). -/
def dfHead (df : DataFrame) (n : ℕ) : DataFrame :=
  ⟨df.cols.map (fun c =>
    ⟨c.name, match c.data with
      | .numeric vs => .numeric (vs.take n)
      | .text vs => .text (vs.take n)⟩)⟩

/-- Display strings of a column as `DataFrame.to_string` shows them
(missing cells print as `NaN`). -/
def colRepr (c : Column) : List String :=
  match c.data with
  | .numeric vs => vs.map (fun v => match v with | some q => qStr q | none => "NaN")
  | .text vs => vs.map (fun v => match v with | some s => s | none => "NaN")

/-- Modelled from the spec: `DataFrame.to_string()` is pandas' textual
rendering of a frame (external); the interface contract only needs some
fixed rendering that is a function of the frame, here the header row and
index-prefixed rows joined with separators. -/
def dfToString (df : DataFrame) : String :=
  String.intercalate "  " (df.cols.map (·.name)) ++ "\n" ++
    String.intercalate "\n" ((List.range (dfLen df)).map (fun i =>
      toString i ++ "  " ++
        String.intercalate "  " (df.cols.map (fun c => (colRepr c).getD i "NaN"))))

/-- The `summary` string of `generate_ai_charts`: the column names of the
loaded frame and `to_string` of its first five rows. -/
def buildSummary (df : DataFrame) : String :=
  "Columns: " ++ String.intercalate ", " (df.cols.map (·.name)) ++ "\n" ++
    "Sample data:\n" ++ dfToString (dfHead df 5)

/-- The full prompt text sent to the gateway (the f-string template around
the summary). -/
def buildPrompt (df : DataFrame) : String :=
  "\n\t\t\tAnalyze this dataset summary:\n\t\t\t" ++ buildSummary df ++
    "\n\n\t\t\tSuggest 3 visualizations to understand this data.\n" ++
    "\t\t\tReturn ONLY a valid JSON array of objects. Do not use markdown code blocks.\n" ++
    "\t\t\tEach object must have:\n" ++
    "\t\t\t- \"title\": string\n" ++
    "\t\t\t- \"type\": \"bar\" or \"pie\" or \"histogram\"\n" ++
    "\t\t\t- \"column\": string (for histogram/pie) or \"x_column\" and \"y_column\" (for bar)\n" ++
    "\t\t\t- \"explanation\": short string\n\n" ++
    "\t\t\tFor 'bar', use a categorical column for x_column and numeric for y_column.\n" ++
    "\t\t\tFor 'pie', use a categorical column.\n" ++
    "\t\t\tFor 'histogram', use a numeric column.\n\t\t\t"

/-- C10: the request text is a function of the loaded table's column names
and its first five rows alone — two loaded tables agreeing on those produce
the identical prompt, whatever their remaining rows. -/
theorem C10_prompt_noninterference (df1 df2 : DataFrame)
    (hnames : df1.cols.map (·.name) = df2.cols.map (·.name))
    (hhead : dfHead df1 5 = dfHead df2 5) :
    buildPrompt df1 = buildPrompt df2 := by
  rw [buildPrompt, buildPrompt, buildSummary, buildSummary, hnames, hhead]

/-- Witness for C10: two one-column frames that agree on their first five
rows but differ in the sixth produce the same prompt. -/
theorem C10_witness :
    buildPrompt (DataFrame.mk [⟨"a", ColData.numeric
        [some 1, some 2, some 3, some 4, some 5, some 6]⟩]) =
      buildPrompt (DataFrame.mk [⟨"a", ColData.numeric
        [some 1, some 2, some 3, some 4, some 5, some 99]⟩]) :=
  C10_prompt_noninterference
    (DataFrame.mk [⟨"a", ColData.numeric [some 1, some 2, some 3, some 4, some 5, some 6]⟩])
    (DataFrame.mk [⟨"a", ColData.numeric [some 1, some 2, some 3, some 4, some 5, some 99]⟩])
    (by decide) (by decide)

end PyTuiExcel
